import Mathlib

/-!
Shallow embedding of the ConnectChat backend (src/backend/server.py).

The Supabase record store is modelled as lists of rows inside a single
`ServerState`; each FastAPI handler / Socket.IO event handler becomes a pure
function from a state (plus its request arguments) to a new state and a
result.  `HTTPException` is modelled by `Except Err`; `sio.emit` is modelled
by appending an `Emit` record to `ServerState.emitted` (a room is either a
conversation id or a session id, both drawn from `Nat`).  Fresh UUIDs are
modelled by a counter `next_id`, timestamps (`datetime.now()`) by a counter
`clock`.  Python dicts (`connected_users`, `user_rooms`) are association
lists looked up by first match, which coincides with dict semantics on the
duplicate-free states the server produces.  User-profile decoration of
responses keeps the fields the claims mention; `str(uuid)` row ids of
`conversation_participants` rows are not observable and are dropped.
-/

namespace ConnectChat

/-- A row of the `users` table (fields the handlers read). -/
structure User where
  id : Nat
  username : String
  avatar_url : Option String
deriving Repr, DecidableEq

/-- A row of the `conversations` table. -/
structure Conversation where
  id : Nat
  name : Option String
  is_group : Bool
  created_by : Nat
  created_at : Nat
deriving Repr, DecidableEq

/-- A row of the `conversation_participants` table (the uuid row id is
not observable and is omitted). -/
structure PartRow where
  conversation_id : Nat
  user_id : Nat
  joined_at : Nat
deriving Repr, DecidableEq

/-- A row of the `messages` table. -/
structure Message where
  id : Nat
  conversation_id : Nat
  sender_id : Nat
  content : String
  message_type : String
  read_by : List Nat
  created_at : Nat
deriving Repr, DecidableEq

/-- A row of the `chat_requests` table; `status` is one of the literal
strings "pending", "accepted", "rejected" exactly as in the source. -/
structure ChatRequest where
  id : Nat
  sender_id : Nat
  receiver_id : Nat
  message : Option String
  status : String
  is_group_invite : Bool
  conversation_id : Option Nat
  created_at : Nat
deriving Repr, DecidableEq

/-- The payload of a `sio.emit` call, keeping the fields each event sends. -/
inductive EmitPayload where
  | newMessage (resp_id conversation_id sender_id : Nat)
      (sender_username : String) (content message_type : String)
      (read_by : List Nat)
  | messageRead (message_id user_id : Nat)
  | newChatRequest (request_id sender_id receiver_id : Nat)
  | userOffline (user_id : Nat)
  | webrtcSignal (type : String) (from_user_id conversation_id : Nat)
      (signal_data : String)
  | incomingCall (caller_id : Nat) (caller_username : String)
      (conversation_id : Option Nat) (call_type : String)
deriving Repr, DecidableEq

/-- One `sio.emit` invocation: event name, target room (a conversation id
for room broadcasts, a session id for unicasts, `none` for the global
broadcast), and payload. -/
structure Emit where
  event : String
  room : Option Nat
  payload : EmitPayload
deriving Repr, DecidableEq

/-- The whole server state: the five record-store tables, the two
in-memory presence dicts, the log of emitted events, and the two
freshness counters. -/
structure ServerState where
  users : List User
  conversations : List Conversation
  conversation_participants : List PartRow
  messages : List Message
  chat_requests : List ChatRequest
  connected_users : List (Nat × Nat)
  user_rooms : List (Nat × List Nat)
  emitted : List Emit
  next_id : Nat
  clock : Nat
deriving Repr, DecidableEq

/-- An `HTTPException`: status code plus detail string. -/
structure Err where
  status_code : Nat
  detail : String
deriving Repr, DecidableEq

instance {ε α : Type} [DecidableEq ε] [DecidableEq α] : DecidableEq (Except ε α) :=
  fun a b =>
    match a, b with
    | .ok x, .ok y =>
      if h : x = y then isTrue (by rw [h]) else isFalse (by intro hc; cases hc; exact h rfl)
    | .error x, .error y =>
      if h : x = y then isTrue (by rw [h]) else isFalse (by intro hc; cases hc; exact h rfl)
    | .ok _, .error _ => isFalse (by intro hc; cases hc)
    | .error _, .ok _ => isFalse (by intro hc; cases hc)

/-- Request body of POST /api/conversations. -/
structure ConversationCreate where
  name : Option String
  is_group : Bool
  participant_ids : List Nat
deriving Repr, DecidableEq

/-- Response of GET /api/conversations/{id}: the view assembled by
`get_conversation` (participants are resolved user rows; the raw id list
is kept as well because the authorization check uses it). -/
structure ConversationResponse where
  id : Nat
  name : Option String
  is_group : Bool
  participant_ids : List Nat
  participants : List User
  last_message : Option Message
  created_at : Nat
  created_by : Nat
deriving Repr, DecidableEq

/-- Request body of POST /api/messages. -/
structure MessageCreate where
  conversation_id : Nat
  content : String
  message_type : String
deriving Repr, DecidableEq

/-- Response shape of `format_message`. -/
structure MessageResponse where
  id : Nat
  conversation_id : Nat
  sender_id : Nat
  sender_username : String
  sender_avatar : Option String
  content : String
  message_type : String
  read_by : List Nat
  created_at : Nat
deriving Repr, DecidableEq

/-- Request body of POST /api/chat-requests. -/
structure ChatRequestCreate where
  receiver_id : Nat
  message : Option String
  is_group_invite : Bool
  conversation_id : Option Nat
deriving Repr, DecidableEq

/-- Request body of POST /api/webrtc/signal. -/
structure WebRTCSignal where
  type : String
  target_user_id : Nat
  conversation_id : Nat
  signal_data : String
deriving Repr, DecidableEq

/-- `format_message(msg, sender_info)`: the message dict itself never
carries a `sender_username` key, so the fallback is the literal
"Unknown". -/
def format_message (msg : Message) (sender_info : Option User) : MessageResponse :=
  { id := msg.id
    conversation_id := msg.conversation_id
    sender_id := msg.sender_id
    sender_username := match sender_info with
      | some u => u.username
      | none => "Unknown"
    sender_avatar := match sender_info with
      | some u => u.avatar_url
      | none => none
    content := msg.content
    message_type := msg.message_type
    read_by := msg.read_by
    created_at := msg.created_at }

/-- The store query `order('created_at', desc=True)`: reverse-chronological
retrieval, newest first. -/
def byCreatedDesc (a b : Message) : Prop := b.created_at ≤ a.created_at

instance : DecidableRel byCreatedDesc := fun a b => Nat.decLe b.created_at a.created_at

instance : IsTotal Message byCreatedDesc :=
  ⟨fun a b => Nat.le_total b.created_at a.created_at⟩

instance : IsTrans Message byCreatedDesc :=
  ⟨fun _ _ _ h1 h2 => Nat.le_trans h2 h1⟩

/-- `supabase.table('messages')...order('created_at', desc=True)` restricted
to one conversation. -/
def store_messages_desc (s : ServerState) (conv_id : Nat) : List Message :=
  List.insertionSort byCreatedDesc
    (s.messages.filter (fun m => m.conversation_id == conv_id))

/-- The user ids of a conversation, in participant-row store order
(`select('user_id').eq('conversation_id', conv_id)`). -/
def participantsOf (s : ServerState) (conv_id : Nat) : List Nat :=
  (s.conversation_participants.filter (fun p => p.conversation_id == conv_id)).map
    (fun p => p.user_id)

/-- The participant-membership query shared by `send_message` and
`get_messages`. -/
def is_participant (s : ServerState) (conv_id user_id : Nat) : Bool :=
  (s.conversation_participants.find?
    (fun p => p.conversation_id == conv_id && p.user_id == user_id)).isSome

/-- GET /api/conversations/{conv_id} (`get_conversation`): read-only view
assembly with the 404 and 403 checks in source order. -/
def get_conversation (s : ServerState) (conv_id user_id : Nat) :
    Except Err ConversationResponse :=
  match s.conversations.find? (fun c => c.id == conv_id) with
  | none => .error ⟨404, "Conversation not found"⟩
  | some conv =>
    let participant_ids := participantsOf s conv_id
    if user_id ∈ participant_ids then
      .ok { id := conv.id
            name := conv.name
            is_group := conv.is_group
            participant_ids := participant_ids
            participants := s.users.filter (fun u => u.id ∈ participant_ids)
            last_message := (store_messages_desc s conv_id).head?
            created_at := conv.created_at
            created_by := conv.created_by }
    else .error ⟨403, "Not a participant of this conversation"⟩

/-- Python set equality `set(a) == set(b)` on id lists: mutual containment. -/
def sameSet (a b : List Nat) : Bool :=
  decide ((∀ x ∈ a, x ∈ b) ∧ (∀ x ∈ b, x ∈ a))

/-- `list(set([user_id] + participant_ids))`: the creator joined with the
requested participants, duplicates removed (the set order is arbitrary in
the source; `dedup` fixes one order, and no behaviour depends on it). -/
def normalize_participants (user_id : Nat) (pids : List Nat) : List Nat :=
  (user_id :: pids).dedup

/-- The direct-chat dedup scan of `create_conversation`: walk the creator's
participant rows in store order; a row matches when its conversation exists
with `is_group = False` and that conversation's full participant set equals
the normalized set.  Returns the first matching conversation id. -/
def find_existing_direct (s : ServerState) (user_id : Nat) (allp : List Nat) :
    Option Nat :=
  ((s.conversation_participants.filter (fun p => p.user_id == user_id)).find?
    (fun ep =>
      (s.conversations.find?
        (fun c => c.id == ep.conversation_id && !c.is_group)).isSome
      && sameSet (participantsOf s ep.conversation_id) allp)).map
    (fun ep => ep.conversation_id)

/-- The guard plus scan: dedup applies only to a non-group request whose
normalized participant set has exactly two members. -/
def cc_found (s : ServerState) (user_id : Nat) (d : ConversationCreate) :
    Option Nat :=
  if !d.is_group && (normalize_participants user_id d.participant_ids).length == 2
  then find_existing_direct s user_id (normalize_participants user_id d.participant_ids)
  else none

/-- POST /api/conversations (`create_conversation`).  The uuid for the new
conversation is drawn before the dedup check, as in the source; on a dedup
hit the existing conversation view is returned and no row is written. -/
def create_conversation (s : ServerState) (user_id : Nat)
    (d : ConversationCreate) : ServerState × Except Err ConversationResponse :=
  let conv_id := s.next_id
  let s0 : ServerState := { s with next_id := s.next_id + 1 }
  match cc_found s user_id d with
  | some c => (s0, get_conversation s0 c user_id)
  | none =>
    let allp := normalize_participants user_id d.participant_ids
    let new_conv : Conversation :=
      { id := conv_id
        name := if d.is_group then d.name else none
        is_group := d.is_group
        created_by := user_id
        created_at := s0.clock }
    let s1 : ServerState :=
      { s0 with conversations := s0.conversations ++ [new_conv]
                clock := s0.clock + 1 }
    let rows : List PartRow :=
      allp.map (fun pid => ⟨conv_id, pid, s1.clock⟩)
    let s2 : ServerState :=
      { s1 with conversation_participants := s1.conversation_participants ++ rows
                clock := s1.clock + allp.length
                next_id := s1.next_id + allp.length }
    (s2, get_conversation s2 conv_id user_id)

/-- POST /api/messages (`send_message`): participant check, then persist
with `read_by = [sender]`, then broadcast `new_message` to the conversation
room.  The model insert always succeeds, so the 500 branch is absent. -/
def send_message (s : ServerState) (user_id : Nat) (d : MessageCreate) :
    ServerState × Except Err MessageResponse :=
  if is_participant s d.conversation_id user_id then
    let sender := s.users.find? (fun u => u.id == user_id)
    let msg : Message :=
      { id := s.next_id
        conversation_id := d.conversation_id
        sender_id := user_id
        content := d.content
        message_type := d.message_type
        read_by := [user_id]
        created_at := s.clock }
    let resp := format_message msg sender
    ({ s with next_id := s.next_id + 1
              clock := s.clock + 1
              messages := s.messages ++ [msg]
              emitted := s.emitted ++
                [⟨"new_message", some d.conversation_id,
                  .newMessage resp.id resp.conversation_id resp.sender_id
                    resp.sender_username resp.content resp.message_type
                    resp.read_by⟩] },
     .ok resp)
  else (s, .error ⟨403, "Not a participant of this conversation"⟩)

/-- GET /api/messages/{conv_id} (`get_messages`): participant check, page
with `range(offset, offset + limit - 1)` over the reverse-chronological
store order, resolve senders, then reverse into chronological order. -/
def get_messages (s : ServerState) (conv_id limit offset user_id : Nat) :
    Except Err (List MessageResponse) :=
  if is_participant s conv_id user_id then
    let page := (List.drop offset (store_messages_desc s conv_id)).take limit
    if page.isEmpty then .ok []
    else
      .ok ((page.map (fun m =>
        format_message m (s.users.find? (fun u => u.id == m.sender_id)))).reverse)
  else .error ⟨403, "Not a participant of this conversation"⟩

/-- POST /api/messages/{msg_id}/read (`mark_message_read`): 404 when the
message is missing; when the reader is already in `read_by` nothing is
written and nothing is broadcast; otherwise the reader is appended,
persisted, and `message_read` is broadcast to the conversation room. -/
def mark_message_read (s : ServerState) (msg_id user_id : Nat) :
    ServerState × Except Err Unit :=
  match s.messages.find? (fun m => m.id == msg_id) with
  | none => (s, .error ⟨404, "Message not found"⟩)
  | some msg =>
    if user_id ∈ msg.read_by then (s, .ok ())
    else
      ({ s with
          messages := s.messages.map (fun m =>
            if m.id == msg_id then { m with read_by := msg.read_by ++ [user_id] }
            else m)
          emitted := s.emitted ++
            [⟨"message_read", some msg.conversation_id,
              .messageRead msg_id user_id⟩] },
       .ok ())

/-- POST /api/chat-requests (`create_chat_request`): conflict check on a
pending request for the exact (sender, receiver) ordered pair, then insert
with status "pending", then notify the receiver when online.  The HTTP
response decoration (sender profile fields) carries no state and is
returned as the inserted row. -/
def create_chat_request (s : ServerState) (user_id : Nat)
    (d : ChatRequestCreate) : ServerState × Except Err ChatRequest :=
  let existing := s.chat_requests.filter (fun r =>
    r.sender_id == user_id && r.receiver_id == d.receiver_id
      && r.status == "pending")
  if !existing.isEmpty then (s, .error ⟨400, "Request already sent"⟩)
  else
    let req : ChatRequest :=
      { id := s.next_id
        sender_id := user_id
        receiver_id := d.receiver_id
        message := d.message
        status := "pending"
        is_group_invite := d.is_group_invite
        conversation_id := d.conversation_id
        created_at := s.clock }
    let s1 : ServerState :=
      { s with next_id := s.next_id + 1
               clock := s.clock + 1
               chat_requests := s.chat_requests ++ [req] }
    match s1.connected_users.lookup d.receiver_id with
    | some sid =>
      ({ s1 with emitted := s1.emitted ++
          [⟨"new_chat_request", some sid,
            .newChatRequest req.id req.sender_id req.receiver_id⟩] },
       .ok req)
    | none => (s1, .ok req)

/-- POST /api/chat-requests/{req_id}/accept (`accept_chat_request`): 404
unless a request with this id and this receiver exists; 400 unless its
status is "pending"; then the status is set to "accepted" and either the
receiver joins the invited group conversation (when `is_group_invite` and a
conversation id are both present — Python truthiness of the pair) or a
direct conversation with the sender is created via `create_conversation`. -/
def accept_chat_request (s : ServerState) (req_id user_id : Nat) :
    ServerState × Except Err ConversationResponse :=
  match s.chat_requests.find? (fun r => r.id == req_id && r.receiver_id == user_id) with
  | none => (s, .error ⟨404, "Request not found"⟩)
  | some req =>
    if req.status ≠ "pending" then (s, .error ⟨400, "Request already processed"⟩)
    else
      let s1 : ServerState :=
        { s with chat_requests := s.chat_requests.map (fun r =>
            if r.id == req_id then { r with status := "accepted" } else r) }
      match req.is_group_invite, req.conversation_id with
      | true, some cid =>
        let s2 : ServerState :=
          { s1 with
              conversation_participants :=
                s1.conversation_participants ++ [⟨cid, user_id, s1.clock⟩]
              next_id := s1.next_id + 1
              clock := s1.clock + 1 }
        (s2, get_conversation s2 cid user_id)
      | _, _ =>
        create_conversation s1 user_id ⟨none, false, [req.sender_id]⟩

/-- POST /api/chat-requests/{req_id}/reject (`reject_chat_request`): 404
unless a request with this id and this receiver exists; then the status is
set to "rejected" — the source performs no check of the current status. -/
def reject_chat_request (s : ServerState) (req_id user_id : Nat) :
    ServerState × Except Err String :=
  match s.chat_requests.find? (fun r => r.id == req_id && r.receiver_id == user_id) with
  | none => (s, .error ⟨404, "Request not found"⟩)
  | some _ =>
    ({ s with chat_requests := s.chat_requests.map (fun r =>
        if r.id == req_id then { r with status := "rejected" } else r) },
     .ok "rejected")

/-- POST /api/webrtc/signal (`webrtc_signal`): when the target user is in
`connected_users`, forward the payload to that session and answer "sent";
otherwise answer "user_offline". -/
def webrtc_signal (s : ServerState) (user_id : Nat) (sig : WebRTCSignal) :
    ServerState × String :=
  match s.connected_users.lookup sig.target_user_id with
  | some sid =>
    ({ s with emitted := s.emitted ++
        [⟨"webrtc_signal", some sid,
          .webrtcSignal sig.type user_id sig.conversation_id sig.signal_data⟩] },
     "sent")
  | none => (s, "user_offline")

/-- Socket.IO `call_user`: when the target user is in `connected_users`,
resolve the caller profile, emit `incoming_call` to the session, and
answer "ringing"; otherwise answer "user_offline". -/
def call_user (s : ServerState) (target_user_id caller_id : Nat)
    (conversation_id : Option Nat) (call_type : String) :
    ServerState × String :=
  match s.connected_users.lookup target_user_id with
  | some tsid =>
    let caller := s.users.find? (fun u => u.id == caller_id)
    ({ s with emitted := s.emitted ++
        [⟨"incoming_call", some tsid,
          .incomingCall caller_id
            (match caller with | some c => c.username | none => "Unknown")
            conversation_id call_type⟩] },
     "ringing")
  | none => (s, "user_offline")

/-- Socket.IO `disconnect`: linear scan of `connected_users` for the
session id; when found, drop the binding, broadcast `user_offline`
globally, and drop the room record; when no binding matches, nothing
happens. -/
def disconnect (s : ServerState) (sid : Nat) : ServerState :=
  match s.connected_users.find? (fun e => e.2 == sid) with
  | none => s
  | some e =>
    { s with connected_users := s.connected_users.filter (fun p => p.1 != e.1)
             user_rooms := s.user_rooms.filter (fun p => p.1 != e.1)
             emitted := s.emitted ++ [⟨"user_offline", none, .userOffline e.1⟩] }

/-- Freshness of the uuid counter over the conversation-related tables:
every conversation id already in the store is below `next_id`.  This holds
in every state reachable from an empty store because ids are drawn from
the counter. -/
def WF (s : ServerState) : Prop :=
  (∀ c ∈ s.conversations, c.id < s.next_id) ∧
  (∀ p ∈ s.conversation_participants, p.conversation_id < s.next_id)

instance (s : ServerState) : Decidable (WF s) := by
  unfold WF; infer_instance

/-- At most one pending chat request per (sender, receiver) ordered pair. -/
def atMostOnePending (s : ServerState) : Prop :=
  ∀ a b : Nat,
    s.chat_requests.countP (fun r =>
      r.sender_id == a && r.receiver_id == b && r.status == "pending") ≤ 1

/-- The state left by the create branch of `create_conversation` (no dedup
hit): one new conversation row and one participant row per normalized
member are appended and the counters advance. -/
def created_state (s : ServerState) (user_id : Nat) (d : ConversationCreate) :
    ServerState :=
  { s with
      conversations := s.conversations ++
        [⟨s.next_id, if d.is_group then d.name else none, d.is_group, user_id, s.clock⟩]
      conversation_participants := s.conversation_participants ++
        (normalize_participants user_id d.participant_ids).map
          (fun pid => ⟨s.next_id, pid, s.clock + 1⟩)
      clock := s.clock + 1 + (normalize_participants user_id d.participant_ids).length
      next_id := s.next_id + 1 + (normalize_participants user_id d.participant_ids).length }

/-- Claim C5: a `disconnect` for a session handle bound to no user in the
connection registry changes nothing at all: the user-to-session map, the
user-to-rooms map and the emitted-event log are untouched, and no
`user_offline` broadcast happens. -/
theorem disconnect_unregistered_noop (s : ServerState) (sid : Nat)
    (h : ∀ e ∈ s.connected_users, e.2 ≠ sid) :
    disconnect s sid = s := by
  have hf : s.connected_users.find? (fun e => e.2 == sid) = none := by
    rw [List.find?_eq_none]
    intro e he
    simpa using h e he
  unfold disconnect
  rw [hf]

theorem disconnect_unregistered_noop_witness :
    (∀ e ∈ ([(3, 7)] : List (Nat × Nat)), e.2 ≠ 9) ∧
      disconnect ⟨[], [], [], [], [], [(3, 7)], [], [], 0, 0⟩ 9 =
        ⟨[], [], [], [], [], [(3, 7)], [], [], 0, 0⟩ :=
  ⟨by decide, disconnect_unregistered_noop ⟨[], [], [], [], [], [(3, 7)], [], [], 0, 0⟩ 9 (by decide)⟩

/-- Claim C1, counterexample: on a store holding a single chat request with
terminal status "accepted" (id 0, sender 1, receiver 2), a further reject
call by the receiver does NOT fail with a StateError — it succeeds and
overwrites the terminal status with "rejected", contradicting both the
claimed failure and the claimed immutability of the terminal state. -/
theorem reject_after_terminal_succeeds :
    (reject_chat_request
        ⟨[], [], [], [], [⟨0, 1, 2, none, "accepted", false, none, 0⟩], [], [], [], 1, 1⟩
        0 2).2 = .ok "rejected" ∧
    ((reject_chat_request
        ⟨[], [], [], [], [⟨0, 1, 2, none, "accepted", false, none, 0⟩], [], [], [], 1, 1⟩
        0 2).1.chat_requests.map (fun r => r.status)) = ["rejected"] := by
  constructor <;> rfl

/-- Claim C1, amended: once a ChatRequest is terminal (accepted or
rejected), a further accept call by the receiver fails with StateError
(400 "Request already processed") and leaves the state unchanged; a
further reject call by the receiver, however, does not fail — the source
omits the status check — and sets the status of the request to
"rejected", so the rejected terminal state can overwrite the accepted
one. -/
theorem terminal_request_transitions (s : ServerState) (req_id u : Nat)
    (req : ChatRequest)
    (hfind : s.chat_requests.find? (fun r => r.id == req_id && r.receiver_id == u) = some req)
    (hterm : req.status = "accepted" ∨ req.status = "rejected") :
    accept_chat_request s req_id u = (s, .error ⟨400, "Request already processed"⟩) ∧
    (reject_chat_request s req_id u).2 = .ok "rejected" ∧
    (reject_chat_request s req_id u).1.chat_requests =
      s.chat_requests.map (fun r =>
        if r.id == req_id then { r with status := "rejected" } else r) := by
  have hne : req.status ≠ "pending" := by
    rcases hterm with h | h <;> simp [h]
  refine ⟨?_, ?_, ?_⟩
  · simp [accept_chat_request, hfind, hne]
  · simp [reject_chat_request, hfind]
  · simp [reject_chat_request, hfind]

theorem terminal_request_transitions_witness :
    ([⟨0, 1, 2, none, "accepted", false, none, 0⟩] : List ChatRequest).find?
        (fun r => r.id == 0 && r.receiver_id == 2) =
      some ⟨0, 1, 2, none, "accepted", false, none, 0⟩ ∧
    accept_chat_request
        ⟨[], [], [], [], [⟨0, 1, 2, none, "accepted", false, none, 0⟩], [], [], [], 1, 1⟩ 0 2 =
      (⟨[], [], [], [], [⟨0, 1, 2, none, "accepted", false, none, 0⟩], [], [], [], 1, 1⟩,
       .error ⟨400, "Request already processed"⟩) :=
  ⟨by decide,
   (terminal_request_transitions
      ⟨[], [], [], [], [⟨0, 1, 2, none, "accepted", false, none, 0⟩], [], [], [], 1, 1⟩
      0 2 ⟨0, 1, 2, none, "accepted", false, none, 0⟩ (by decide) (Or.inl rfl)).1⟩

/-- Claim C7: for the call/WebRTC relays (`webrtc_signal` over HTTP and
`call_user` over Socket.IO): when the target user is registered, the
payload is forwarded to exactly that user's registered session (one
unicast emit to the session room) and the result reports success ("sent",
resp. "ringing"); when the target is absent the result is the distinct
"user_offline" value, nothing is emitted, and no error arises; in all
cases the registry maps are unchanged. -/
theorem signaling_relay_spec (s : ServerState) (user_id : Nat)
    (sig : WebRTCSignal) (target caller : Nat) (conv : Option Nat) (ct : String) :
    (∀ tsid, s.connected_users.lookup sig.target_user_id = some tsid →
      webrtc_signal s user_id sig =
        ({ s with emitted := s.emitted ++
            [⟨"webrtc_signal", some tsid,
              .webrtcSignal sig.type user_id sig.conversation_id sig.signal_data⟩] },
         "sent")) ∧
    (s.connected_users.lookup sig.target_user_id = none →
      webrtc_signal s user_id sig = (s, "user_offline")) ∧
    (webrtc_signal s user_id sig).1.connected_users = s.connected_users ∧
    (webrtc_signal s user_id sig).1.user_rooms = s.user_rooms ∧
    (∀ tsid, s.connected_users.lookup target = some tsid →
      (call_user s target caller conv ct).2 = "ringing" ∧
      (call_user s target caller conv ct).1.emitted = s.emitted ++
        [⟨"incoming_call", some tsid,
          .incomingCall caller
            (match s.users.find? (fun u => u.id == caller) with
             | some c => c.username
             | none => "Unknown")
            conv ct⟩]) ∧
    (s.connected_users.lookup target = none →
      call_user s target caller conv ct = (s, "user_offline")) ∧
    (call_user s target caller conv ct).1.connected_users = s.connected_users ∧
    (call_user s target caller conv ct).1.user_rooms = s.user_rooms := by
  refine ⟨?_, ?_, ?_, ?_, ?_, ?_, ?_, ?_⟩
  · intro tsid h
    unfold webrtc_signal
    rw [h]
  · intro h
    unfold webrtc_signal
    rw [h]
  · unfold webrtc_signal
    cases s.connected_users.lookup sig.target_user_id <;> rfl
  · unfold webrtc_signal
    cases s.connected_users.lookup sig.target_user_id <;> rfl
  · intro tsid h
    unfold call_user
    rw [h]
    exact ⟨rfl, rfl⟩
  · intro h
    unfold call_user
    rw [h]
  · unfold call_user
    cases s.connected_users.lookup target <;> rfl
  · unfold call_user
    cases s.connected_users.lookup target <;> rfl

theorem signaling_relay_spec_witness :
    ([(2, 11)] : List (Nat × Nat)).lookup 2 = some 11 ∧
    webrtc_signal ⟨[], [], [], [], [], [(2, 11)], [], [], 0, 0⟩ 1 ⟨"offer", 2, 5, "sdp"⟩ =
      (⟨[], [], [], [], [], [(2, 11)], [],
        [⟨"webrtc_signal", some 11, .webrtcSignal "offer" 1 5 "sdp"⟩], 0, 0⟩,
       "sent") :=
  ⟨by decide,
   (signaling_relay_spec ⟨[], [], [], [], [], [(2, 11)], [], [], 0, 0⟩ 1
      ⟨"offer", 2, 5, "sdp"⟩ 2 1 none "video").1 11 (by decide)⟩

/-- Claim C3: `mark_message_read` is idempotent.  For an existing message:
when the reader is already in `read_by`, the call performs no write and no
broadcast (the state is returned untouched); otherwise it appends the
reader to `read_by`, persists, and broadcasts one `message_read` event to
the conversation room; consequently a second identical call is a complete
no-op, so `read_by` keeps its value after the first call. -/
theorem mark_read_idempotent (s : ServerState) (msg_id user_id : Nat) (m : Message)
    (hfind : s.messages.find? (fun x => x.id == msg_id) = some m) :
    (user_id ∈ m.read_by → mark_message_read s msg_id user_id = (s, .ok ())) ∧
    (user_id ∉ m.read_by →
      (mark_message_read s msg_id user_id).1.messages =
        s.messages.map (fun x =>
          if x.id == msg_id then { x with read_by := m.read_by ++ [user_id] } else x) ∧
      (mark_message_read s msg_id user_id).1.emitted =
        s.emitted ++ [⟨"message_read", some m.conversation_id, .messageRead msg_id user_id⟩]) ∧
    mark_message_read (mark_message_read s msg_id user_id).1 msg_id user_id =
      ((mark_message_read s msg_id user_id).1, .ok ()) := by
  refine ⟨?_, ?_, ?_⟩
  · intro hm
    simp [mark_message_read, hfind, hm]
  · intro hm
    constructor <;> simp [mark_message_read, hfind, hm]
  · by_cases hm : user_id ∈ m.read_by
    · simp [mark_message_read, hfind, hm]
    · have hmap : (mark_message_read s msg_id user_id).1.messages =
          s.messages.map (fun x =>
            if x.id == msg_id then { x with read_by := m.read_by ++ [user_id] } else x) := by
        simp [mark_message_read, hfind, hm]
      have hpid : m.id = msg_id := by
        have h := List.find?_some hfind
        simpa using h
      have hfind2 : (mark_message_read s msg_id user_id).1.messages.find?
          (fun x => x.id == msg_id) =
          some { m with read_by := m.read_by ++ [user_id] } := by
        rw [hmap, List.find?_map]
        have hcomp : ((fun x => x.id == msg_id) ∘
            (fun x : Message =>
              if x.id == msg_id then { x with read_by := m.read_by ++ [user_id] } else x))
            = (fun x : Message => x.id == msg_id) := by
          funext x
          by_cases h : x.id = msg_id <;> simp [h]
        rw [hcomp, hfind]
        simp [hpid]
      generalize hs1 : (mark_message_read s msg_id user_id).1 = s1 at hfind2 ⊢
      unfold mark_message_read
      rw [hfind2]
      simp

theorem mark_read_idempotent_witness :
    ([⟨0, 5, 1, "a", "text", [1], 30⟩] : List Message).find? (fun x => x.id == 0) =
      some ⟨0, 5, 1, "a", "text", [1], 30⟩ ∧
    mark_message_read
        (mark_message_read ⟨[], [], [], [⟨0, 5, 1, "a", "text", [1], 30⟩], [], [], [], [], 1, 31⟩ 0 7).1
        0 7 =
      ((mark_message_read ⟨[], [], [], [⟨0, 5, 1, "a", "text", [1], 30⟩], [], [], [], [], 1, 31⟩ 0 7).1,
       .ok ()) :=
  ⟨by decide,
   (mark_read_idempotent ⟨[], [], [], [⟨0, 5, 1, "a", "text", [1], 30⟩], [], [], [], [], 1, 31⟩
      0 7 ⟨0, 5, 1, "a", "text", [1], 30⟩ (by decide)).2.2⟩

/-- Claim C9: `mark_message_read` performs no participant authorization:
whenever the message exists the call succeeds for every user (appending a
not-yet-present reader to `read_by` and broadcasting `message_read` to the
conversation room), its outcome is invariant under arbitrary changes to
the participants table, and the only failure is the 404 when the message
id does not exist (which leaves the state unchanged). -/
theorem mark_read_no_authorization (s : ServerState) (msg_id user_id : Nat) :
    (∀ m, s.messages.find? (fun x => x.id == msg_id) = some m →
      (mark_message_read s msg_id user_id).2 = .ok () ∧
      (user_id ∉ m.read_by →
        (mark_message_read s msg_id user_id).1.messages =
          s.messages.map (fun x =>
            if x.id == msg_id then { x with read_by := m.read_by ++ [user_id] } else x) ∧
        (mark_message_read s msg_id user_id).1.emitted =
          s.emitted ++ [⟨"message_read", some m.conversation_id,
            .messageRead msg_id user_id⟩])) ∧
    (∀ ps, (mark_message_read { s with conversation_participants := ps } msg_id user_id).2 =
      (mark_message_read s msg_id user_id).2) ∧
    (s.messages.find? (fun x => x.id == msg_id) = none →
      mark_message_read s msg_id user_id = (s, .error ⟨404, "Message not found"⟩)) := by
  refine ⟨?_, ?_, ?_⟩
  · intro m hfind
    refine ⟨?_, fun hm => ?_⟩
    · by_cases hm : user_id ∈ m.read_by <;> simp [mark_message_read, hfind, hm]
    · constructor <;> simp [mark_message_read, hfind, hm]
  · intro ps
    unfold mark_message_read
    cases h : s.messages.find? (fun x => x.id == msg_id) with
    | none => simp [h]
    | some m => by_cases hm : user_id ∈ m.read_by <;> simp [h, hm]
  · intro h
    simp [mark_message_read, h]

theorem mark_read_no_authorization_witness :
    ([⟨0, 5, 1, "a", "text", [1], 30⟩] : List Message).find? (fun x => x.id == 0) =
      some ⟨0, 5, 1, "a", "text", [1], 30⟩ ∧
    (mark_message_read ⟨[], [], [], [⟨0, 5, 1, "a", "text", [1], 30⟩], [], [], [], [], 1, 31⟩ 0 9).2 =
      .ok () :=
  ⟨by decide,
   ((mark_read_no_authorization
      ⟨[], [], [], [⟨0, 5, 1, "a", "text", [1], 30⟩], [], [], [], [], 1, 31⟩ 0 9).1
      ⟨0, 5, 1, "a", "text", [1], 30⟩ (by decide)).1⟩

/-- Claim C6: `send_message` fails with the 403 AuthzError exactly when the
sender is not a participant of the conversation; on success the persisted
message has `read_by = [sender]`; and the outcome is independent of the
presence registry (the broadcast is fire-and-forget: success is defined by
persistence alone, regardless of who is connected to receive it). -/
theorem send_message_spec (s : ServerState) (user_id : Nat) (d : MessageCreate) :
    (is_participant s d.conversation_id user_id = false →
      send_message s user_id d =
        (s, .error ⟨403, "Not a participant of this conversation"⟩)) ∧
    (is_participant s d.conversation_id user_id = true →
      ∃ resp, (send_message s user_id d).2 = .ok resp ∧
        resp.read_by = [user_id] ∧
        (send_message s user_id d).1.messages = s.messages ++
          [⟨s.next_id, d.conversation_id, user_id, d.content, d.message_type,
            [user_id], s.clock⟩]) ∧
    (∀ cu ur, (send_message { s with connected_users := cu, user_rooms := ur }
        user_id d).2 = (send_message s user_id d).2) := by
  refine ⟨?_, ?_, ?_⟩
  · intro h
    simp [send_message, h]
  · intro h
    refine ⟨format_message
        ⟨s.next_id, d.conversation_id, user_id, d.content, d.message_type,
          [user_id], s.clock⟩
        (s.users.find? (fun u => u.id == user_id)), ?_, rfl, ?_⟩ <;>
      simp [send_message, h]
  · intro cu ur
    have hcu : is_participant { s with connected_users := cu, user_rooms := ur }
        d.conversation_id user_id = is_participant s d.conversation_id user_id := rfl
    by_cases h : is_participant s d.conversation_id user_id <;>
      simp [send_message, hcu, h]

theorem send_message_spec_witness :
    is_participant ⟨[], [], [⟨5, 1, 0⟩], [], [], [], [], [], 9, 40⟩ 5 1 = true ∧
    (send_message ⟨[], [], [⟨5, 1, 0⟩], [], [], [], [], [], 9, 40⟩ 1 ⟨5, "hi", "text"⟩).1.messages =
      [⟨9, 5, 1, "hi", "text", [1], 40⟩] :=
  ⟨by decide,
   by
    obtain ⟨resp, h1, h2, h3⟩ :=
      (send_message_spec ⟨[], [], [⟨5, 1, 0⟩], [], [], [], [], [], 9, 40⟩ 1 ⟨5, "hi", "text"⟩).2.1
        (by decide)
    simpa using h3⟩

/-- Claim C8: `create_chat_request` fails with the 400 ConflictError
exactly when a pending request for the same (sender, receiver) ordered
pair already exists (leaving the state unchanged), otherwise appends a new
request with status "pending"; hence it preserves the invariant that at
most one pending request exists per ordered pair. -/
theorem create_chat_request_spec (s : ServerState) (user_id : Nat)
    (d : ChatRequestCreate) :
    ((∃ r ∈ s.chat_requests, r.sender_id = user_id ∧ r.receiver_id = d.receiver_id ∧
        r.status = "pending") →
      create_chat_request s user_id d = (s, .error ⟨400, "Request already sent"⟩)) ∧
    ((¬ ∃ r ∈ s.chat_requests, r.sender_id = user_id ∧ r.receiver_id = d.receiver_id ∧
        r.status = "pending") →
      ∃ req, (create_chat_request s user_id d).2 = .ok req ∧
        req.status = "pending" ∧ req.sender_id = user_id ∧
        req.receiver_id = d.receiver_id ∧
        (create_chat_request s user_id d).1.chat_requests = s.chat_requests ++ [req]) ∧
    (atMostOnePending s → atMostOnePending (create_chat_request s user_id d).1) := by
  have hiff : ((s.chat_requests.filter (fun r =>
      r.sender_id == user_id && r.receiver_id == d.receiver_id &&
        r.status == "pending")).isEmpty = true) ↔
      ¬ ∃ r ∈ s.chat_requests, r.sender_id = user_id ∧
        r.receiver_id = d.receiver_id ∧ r.status = "pending" := by
    rw [List.isEmpty_iff, List.filter_eq_nil_iff]
    constructor
    · rintro h ⟨r, hr, h1, h2, h3⟩
      exact (h r hr) (by simp [h1, h2, h3])
    · intro h r hr hp
      simp only [Bool.and_eq_true, beq_iff_eq] at hp
      exact h ⟨r, hr, hp.1.1, hp.1.2, hp.2⟩
  refine ⟨?_, ?_, ?_⟩
  · intro hex
    have h1 : (s.chat_requests.filter (fun r =>
        r.sender_id == user_id && r.receiver_id == d.receiver_id &&
          r.status == "pending")).isEmpty = false := by
      cases h : (s.chat_requests.filter (fun r =>
          r.sender_id == user_id && r.receiver_id == d.receiver_id &&
            r.status == "pending")).isEmpty
      · rfl
      · exact absurd hex (hiff.mp h)
    simp [create_chat_request, h1]
  · intro hne
    have h1 := hiff.mpr hne
    refine ⟨⟨s.next_id, user_id, d.receiver_id, d.message, "pending",
      d.is_group_invite, d.conversation_id, s.clock⟩, ?_, rfl, rfl, rfl, ?_⟩ <;>
    · simp only [create_chat_request, h1]
      cases hlk : s.connected_users.lookup d.receiver_id <;> simp [hlk]
  · intro hinv a b
    cases hemp : (s.chat_requests.filter (fun r =>
        r.sender_id == user_id && r.receiver_id == d.receiver_id &&
          r.status == "pending")).isEmpty with
    | false =>
      have : (create_chat_request s user_id d).1 = s := by
        simp [create_chat_request, hemp]
      rw [this]
      exact hinv a b
    | true =>
      have hcr : (create_chat_request s user_id d).1.chat_requests =
          s.chat_requests ++
            [⟨s.next_id, user_id, d.receiver_id, d.message, "pending",
              d.is_group_invite, d.conversation_id, s.clock⟩] := by
        simp only [create_chat_request, hemp]
        cases hlk : s.connected_users.lookup d.receiver_id <;> simp [hlk]
      rw [hcr, List.countP_append]
      by_cases hab : user_id = a ∧ d.receiver_id = b
      · have h0 : s.chat_requests.countP (fun r =>
            r.sender_id == a && r.receiver_id == b && r.status == "pending") = 0 := by
          rw [List.countP_eq_length_filter, ← hab.1, ← hab.2,
            List.isEmpty_iff.mp hemp]
          rfl
        rw [h0]
        simp only [List.countP_cons, List.countP_nil, Nat.zero_add]
        split <;> simp
      · have h0 : List.countP (fun r =>
            r.sender_id == a && r.receiver_id == b && r.status == "pending")
            [(⟨s.next_id, user_id, d.receiver_id, d.message, "pending",
              d.is_group_invite, d.conversation_id, s.clock⟩ : ChatRequest)] = 0 := by
          rw [List.countP_eq_zero]
          intro r hr
          simp only [List.mem_singleton] at hr
          subst hr
          rcases not_and_or.mp hab with h | h <;> simp [h]
        rw [h0]
        simpa using hinv a b

theorem create_chat_request_spec_witness :
    atMostOnePending ⟨[], [], [], [], [], [], [], [], 0, 0⟩ ∧
    atMostOnePending (create_chat_request ⟨[], [], [], [], [], [], [], [], 0, 0⟩ 1
      ⟨2, none, false, none⟩).1 :=
  ⟨fun a b => by simp [atMostOnePending],
   (create_chat_request_spec ⟨[], [], [], [], [], [], [], [], 0, 0⟩ 1
      ⟨2, none, false, none⟩).2.2 (fun a b => by simp [atMostOnePending])⟩

/-- Claim C4: whenever `get_messages` succeeds, its result is sorted
ascending by creation order (oldest first) whatever the order of the
underlying message store, and it is exactly the reverse of the
limit/offset page taken from the reverse-chronological store order
(paging happens before the final re-ordering). -/
theorem get_messages_ordering (s : ServerState) (conv_id limit offset user_id : Nat)
    (msgs : List MessageResponse)
    (h : get_messages s conv_id limit offset user_id = .ok msgs) :
    msgs.Sorted (fun a b => a.created_at ≤ b.created_at) ∧
    msgs = ((((store_messages_desc s conv_id).drop offset).take limit).map
      (fun m => format_message m (s.users.find? (fun u => u.id == m.sender_id)))).reverse := by
  have hsorted : ∀ l : List Message, l.Sublist (store_messages_desc s conv_id) →
      ((l.map (fun m =>
        format_message m (s.users.find? (fun u => u.id == m.sender_id)))).reverse).Sorted
        (fun a b => a.created_at ≤ b.created_at) := by
    intro l hsub
    rw [List.Sorted, List.pairwise_reverse, List.pairwise_map]
    exact (List.Pairwise.sublist hsub
      (List.sorted_insertionSort byCreatedDesc
        (s.messages.filter (fun m => m.conversation_id == conv_id)))).imp
      (fun hab => hab)
  unfold get_messages at h
  split at h
  · simp only [] at h
    split at h
    · next hemp =>
      simp only [Except.ok.injEq] at h
      subst h
      have hpe : ((store_messages_desc s conv_id).drop offset).take limit = [] :=
        List.isEmpty_iff.mp hemp
      refine ⟨by simp, ?_⟩
      rw [hpe]
      rfl
    · simp only [Except.ok.injEq] at h
      subst h
      exact ⟨hsorted _ ((List.take_sublist _ _).trans (List.drop_sublist _ _)), rfl⟩
  · exact Except.noConfusion h

theorem get_messages_ordering_witness :
    (get_messages
        ⟨[], [], [⟨5, 1, 0⟩],
          [⟨0, 5, 1, "a", "text", [1], 30⟩, ⟨1, 5, 1, "b", "text", [1], 10⟩],
          [], [], [], [], 6, 100⟩ 5 50 0 1 =
      .ok [⟨1, 5, 1, "Unknown", none, "b", "text", [1], 10⟩,
           ⟨0, 5, 1, "Unknown", none, "a", "text", [1], 30⟩]) ∧
    ([⟨1, 5, 1, "Unknown", none, "b", "text", [1], 10⟩,
      ⟨0, 5, 1, "Unknown", none, "a", "text", [1], 30⟩] :
        List MessageResponse).Sorted (fun a b => a.created_at ≤ b.created_at) :=
  ⟨by decide,
   (get_messages_ordering
      ⟨[], [], [⟨5, 1, 0⟩],
        [⟨0, 5, 1, "a", "text", [1], 30⟩, ⟨1, 5, 1, "b", "text", [1], 10⟩],
        [], [], [], [], 6, 100⟩ 5 50 0 1
      [⟨1, 5, 1, "Unknown", none, "b", "text", [1], 10⟩,
       ⟨0, 5, 1, "Unknown", none, "a", "text", [1], 30⟩] (by decide)).1⟩

theorem sameSet_refl (a : List Nat) : sameSet a a = true :=
  decide_eq_true ⟨fun _ hx => hx, fun _ hx => hx⟩

theorem sameSet_mem_right {a b : List Nat} (h : sameSet a b = true) {x : Nat}
    (hx : x ∈ b) : x ∈ a :=
  (of_decide_eq_true h).2 x hx

theorem self_mem_normalize (u : Nat) (pids : List Nat) :
    u ∈ normalize_participants u pids :=
  List.mem_dedup.mpr (List.mem_cons_self _ _)

theorem get_conversation_next_id (s : ServerState) (n c u : Nat) :
    get_conversation { s with next_id := n } c u = get_conversation s c u := rfl

theorem cc_found_next_id (s : ServerState) (n u : Nat) (d : ConversationCreate) :
    cc_found { s with next_id := n } u d = cc_found s u d := rfl

theorem find_existing_direct_some {s : ServerState} {u : Nat} {allp : List Nat}
    {c : Nat} (h : find_existing_direct s u allp = some c) :
    (∃ conv ∈ s.conversations, conv.id = c ∧ conv.is_group = false) ∧
    sameSet (participantsOf s c) allp = true := by
  unfold find_existing_direct at h
  rw [Option.map_eq_some'] at h
  obtain ⟨ep, hfind, hc⟩ := h
  have hp := List.find?_some hfind
  simp only [Bool.and_eq_true] at hp
  obtain ⟨h1, h2⟩ := hp
  rw [List.find?_isSome] at h1
  obtain ⟨conv, hconv, hcp⟩ := h1
  simp only [Bool.and_eq_true, beq_iff_eq, Bool.not_eq_true'] at hcp
  subst hc
  exact ⟨⟨conv, hconv, hcp.1, hcp.2⟩, h2⟩

theorem get_conversation_ok {s : ServerState} {c u : Nat}
    (hconv : ∃ conv ∈ s.conversations, conv.id = c)
    (hmem : u ∈ participantsOf s c) :
    ∃ v, get_conversation s c u = .ok v ∧ v.id = c := by
  have hs : (s.conversations.find? (fun cv => cv.id == c)).isSome := by
    rw [List.find?_isSome]
    obtain ⟨conv, h1, h2⟩ := hconv
    exact ⟨conv, h1, by simp [h2]⟩
  unfold get_conversation
  cases hf : s.conversations.find? (fun cv => cv.id == c) with
  | none => rw [hf] at hs; simp at hs
  | some cv =>
    have hcvid : cv.id = c := by simpa using List.find?_some hf
    simp only [hf]
    rw [if_pos hmem]
    exact ⟨_, rfl, hcvid⟩

theorem create_conversation_found_eq {s : ServerState} {u : Nat}
    {d : ConversationCreate} {c : Nat} (h : cc_found s u d = some c) :
    create_conversation s u d =
      ({ s with next_id := s.next_id + 1 },
       get_conversation { s with next_id := s.next_id + 1 } c u) := by
  unfold create_conversation
  rw [h]

theorem create_conversation_found_ok {s : ServerState} {u : Nat}
    {d : ConversationCreate} {c : Nat} (h : cc_found s u d = some c) :
    ∃ v, (create_conversation s u d).2 = .ok v ∧ v.id = c := by
  have hfed : find_existing_direct s u (normalize_participants u d.participant_ids) =
      some c := by
    unfold cc_found at h
    split at h
    · exact h
    · exact absurd h (by simp)
  obtain ⟨hconv, hss⟩ := find_existing_direct_some hfed
  obtain ⟨conv, hc1, hc2, _⟩ := hconv
  have hmem : u ∈ participantsOf s c :=
    sameSet_mem_right hss (self_mem_normalize u d.participant_ids)
  obtain ⟨v, hv, hid⟩ := get_conversation_ok ⟨conv, hc1, hc2⟩ hmem
  rw [create_conversation_found_eq h]
  exact ⟨v, by rw [show ((({ s with next_id := s.next_id + 1 } : ServerState),
    get_conversation { s with next_id := s.next_id + 1 } c u)).2 =
      get_conversation s c u from rfl]; exact hv, hid⟩

theorem create_conversation_new {s : ServerState} {u : Nat} {d : ConversationCreate}
    (h : cc_found s u d = none) :
    create_conversation s u d =
      (created_state s u d, get_conversation (created_state s u d) s.next_id u) := by
  unfold create_conversation created_state
  rw [h]

theorem conversations_created (s : ServerState) (u : Nat) (d : ConversationCreate) :
    (created_state s u d).conversations = s.conversations ++
      [⟨s.next_id, if d.is_group then d.name else none, d.is_group, u, s.clock⟩] := rfl

theorem parts_created (s : ServerState) (u : Nat) (d : ConversationCreate) :
    (created_state s u d).conversation_participants = s.conversation_participants ++
      (normalize_participants u d.participant_ids).map
        (fun pid => ⟨s.next_id, pid, s.clock + 1⟩) := rfl

theorem participantsOf_created_other (s : ServerState) (u : Nat)
    (d : ConversationCreate) (c : Nat) (hc : c ≠ s.next_id) :
    participantsOf (created_state s u d) c = participantsOf s c := by
  unfold participantsOf
  rw [parts_created, List.filter_append]
  have hnil : ((normalize_participants u d.participant_ids).map
      (fun pid => (⟨s.next_id, pid, s.clock + 1⟩ : PartRow))).filter
        (fun p => p.conversation_id == c) = [] := by
    rw [List.filter_eq_nil_iff]
    intro a ha
    obtain ⟨pid, _, rfl⟩ := List.mem_map.mp ha
    simpa using Ne.symm hc
  rw [hnil, List.append_nil]

theorem participantsOf_created_self (s : ServerState) (u : Nat)
    (d : ConversationCreate) (hWF : WF s) :
    participantsOf (created_state s u d) s.next_id =
      normalize_participants u d.participant_ids := by
  unfold participantsOf
  rw [parts_created, List.filter_append]
  have hnil : s.conversation_participants.filter
      (fun p => p.conversation_id == s.next_id) = [] := by
    rw [List.filter_eq_nil_iff]
    intro p hp
    have := hWF.2 p hp
    simp only [beq_iff_eq]
    omega
  have hall : ((normalize_participants u d.participant_ids).map
      (fun pid => (⟨s.next_id, pid, s.clock + 1⟩ : PartRow))).filter
        (fun p => p.conversation_id == s.next_id) =
      (normalize_participants u d.participant_ids).map
        (fun pid => (⟨s.next_id, pid, s.clock + 1⟩ : PartRow)) := by
    rw [List.filter_eq_self]
    intro a ha
    obtain ⟨pid, _, rfl⟩ := List.mem_map.mp ha
    simp
  rw [hnil, hall, List.nil_append, List.map_map]
  exact List.map_id _

theorem find_conv_created_self (s : ServerState) (u : Nat) (d : ConversationCreate)
    (hWF : WF s) (hg : d.is_group = false) :
    (created_state s u d).conversations.find?
        (fun c => c.id == s.next_id && !c.is_group) =
      some ⟨s.next_id, if d.is_group then d.name else none, d.is_group, u, s.clock⟩ := by
  rw [conversations_created, List.find?_append]
  have hnone : s.conversations.find? (fun c => c.id == s.next_id && !c.is_group) = none := by
    rw [List.find?_eq_none]
    intro c hc
    have := hWF.1 c hc
    simp only [Bool.and_eq_true, beq_iff_eq, not_and]
    intro h
    omega
  rw [hnone, Option.none_or, List.find?_cons_of_pos _ (by simp [hg])]

theorem find_conv_created_other (s : ServerState) (u : Nat) (d : ConversationCreate)
    (c : Nat) (hc : c ≠ s.next_id) :
    (created_state s u d).conversations.find? (fun cv => cv.id == c && !cv.is_group) =
      s.conversations.find? (fun cv => cv.id == c && !cv.is_group) := by
  rw [conversations_created, List.find?_append]
  have hnone : List.find? (fun cv => cv.id == c && !cv.is_group)
      [(⟨s.next_id, if d.is_group then d.name else none, d.is_group, u, s.clock⟩ :
        Conversation)] = none := by
    rw [List.find?_cons_of_neg _ (by simp [Ne.symm hc])]
    rfl
  rw [hnone, Option.or_none]

theorem cc_found_after_create {s : ServerState} {u : Nat} {d : ConversationCreate}
    (hWF : WF s) (h : cc_found s u d = none)
    (hg : d.is_group = false)
    (hl : ((normalize_participants u d.participant_ids).length == 2) = true) :
    cc_found (create_conversation s u d).1 u d = some s.next_id := by
  have hguard : (!d.is_group &&
      ((normalize_participants u d.participant_ids).length == 2)) = true := by
    simp [hg, hl]
  have hfed : find_existing_direct s u (normalize_participants u d.participant_ids) =
      none := by
    unfold cc_found at h
    rwa [if_pos hguard] at h
  have hall := List.find?_eq_none.mp (by
    unfold find_existing_direct at hfed
    exact Option.map_eq_none'.mp hfed)
  rw [create_conversation_new h]
  show cc_found (created_state s u d) u d = some s.next_id
  unfold cc_found
  rw [if_pos hguard]
  unfold find_existing_direct
  rw [parts_created, List.filter_append, List.find?_append]
  have h1 : List.find? (fun ep =>
      ((created_state s u d).conversations.find?
        (fun c => c.id == ep.conversation_id && !c.is_group)).isSome
      && sameSet (participantsOf (created_state s u d) ep.conversation_id)
          (normalize_participants u d.participant_ids))
      (s.conversation_participants.filter (fun p => p.user_id == u)) = none := by
    rw [List.find?_eq_none]
    intro ep hep
    have hepcid : ep.conversation_id ≠ s.next_id := by
      have := hWF.2 ep (List.mem_of_mem_filter hep)
      omega
    rw [find_conv_created_other s u d ep.conversation_id hepcid,
      participantsOf_created_other s u d ep.conversation_id hepcid]
    exact hall ep hep
  have h2mem : (⟨s.next_id, u, s.clock + 1⟩ : PartRow) ∈
      ((normalize_participants u d.participant_ids).map
        (fun pid => (⟨s.next_id, pid, s.clock + 1⟩ : PartRow))).filter
        (fun p => p.user_id == u) :=
    List.mem_filter.mpr
      ⟨List.mem_map.mpr ⟨u, self_mem_normalize u d.participant_ids, rfl⟩, by simp⟩
  have h2all : ∀ x ∈ ((normalize_participants u d.participant_ids).map
      (fun pid => (⟨s.next_id, pid, s.clock + 1⟩ : PartRow))).filter
        (fun p => p.user_id == u),
      (((created_state s u d).conversations.find?
        (fun c => c.id == x.conversation_id && !c.is_group)).isSome
      && sameSet (participantsOf (created_state s u d) x.conversation_id)
          (normalize_participants u d.participant_ids)) = true := by
    intro x hx
    obtain ⟨pid, _, rfl⟩ := List.mem_map.mp (List.mem_of_mem_filter hx)
    rw [find_conv_created_self s u d hWF hg, participantsOf_created_self s u d hWF]
    simp [sameSet_refl]
  have h2some : (List.find? (fun ep =>
      ((created_state s u d).conversations.find?
        (fun c => c.id == ep.conversation_id && !c.is_group)).isSome
      && sameSet (participantsOf (created_state s u d) ep.conversation_id)
          (normalize_participants u d.participant_ids))
      (((normalize_participants u d.participant_ids).map
        (fun pid => (⟨s.next_id, pid, s.clock + 1⟩ : PartRow))).filter
        (fun p => p.user_id == u))).isSome :=
    List.find?_isSome.mpr ⟨_, h2mem, h2all _ h2mem⟩
  obtain ⟨ep, hep⟩ := Option.isSome_iff_exists.mp h2some
  have hepcid : ep.conversation_id = s.next_id := by
    obtain ⟨pid, _, rfl⟩ :=
      List.mem_map.mp (List.mem_of_mem_filter (List.mem_of_find?_eq_some hep))
    rfl
  rw [h1, Option.none_or, hep]
  simp [hepcid]

theorem create_conversation_new_ok {s : ServerState} {u : Nat}
    {d : ConversationCreate} (h : cc_found s u d = none) :
    ∃ v, (create_conversation s u d).2 = .ok v ∧ v.id = s.next_id := by
  rw [create_conversation_new h]
  show ∃ v, get_conversation (created_state s u d) s.next_id u = .ok v ∧ v.id = s.next_id
  apply get_conversation_ok
  · exact ⟨⟨s.next_id, if d.is_group then d.name else none, d.is_group, u, s.clock⟩,
      by rw [conversations_created]
         exact List.mem_append_right _ (List.mem_singleton.mpr rfl), rfl⟩
  · unfold participantsOf
    refine List.mem_map.mpr ⟨⟨s.next_id, u, s.clock + 1⟩, List.mem_filter.mpr ⟨?_, by simp⟩, rfl⟩
    rw [parts_created]
    exact List.mem_append_right _
      (List.mem_map.mpr ⟨u, self_mem_normalize u d.participant_ids, rfl⟩)

theorem create_conversation_ok (s : ServerState) (u : Nat) (d : ConversationCreate) :
    ∃ v, (create_conversation s u d).2 = .ok v := by
  cases hf : cc_found s u d with
  | some c =>
    obtain ⟨v, hv, _⟩ := create_conversation_found_ok hf
    exact ⟨v, hv⟩
  | none =>
    obtain ⟨v, hv, _⟩ := create_conversation_new_ok hf
    exact ⟨v, hv⟩

/-- Claim C2: for two distinct users A and B, calling `create_conversation`
a second time with `is_group = false` and the same normalized pair set
returns the very conversation view produced by the first call (in
particular the same conversation id) and writes no conversation row and no
participant row.  `WF` is the uuid-freshness invariant of every reachable
store. -/
theorem create_conversation_idempotent (s : ServerState) (A B : Nat)
    (hWF : WF s) (hAB : A ≠ B) :
    ∃ v, (create_conversation s A ⟨none, false, [B]⟩).2 = .ok v ∧
      (create_conversation (create_conversation s A ⟨none, false, [B]⟩).1 A
        ⟨none, false, [B]⟩).2 = .ok v ∧
      (create_conversation (create_conversation s A ⟨none, false, [B]⟩).1 A
        ⟨none, false, [B]⟩).1.conversations =
        (create_conversation s A ⟨none, false, [B]⟩).1.conversations ∧
      (create_conversation (create_conversation s A ⟨none, false, [B]⟩).1 A
        ⟨none, false, [B]⟩).1.conversation_participants =
        (create_conversation s A ⟨none, false, [B]⟩).1.conversation_participants := by
  have hded : normalize_participants A [B] = [A, B] := by
    unfold normalize_participants
    rw [List.dedup_cons_of_not_mem (by simp [hAB]),
      List.dedup_cons_of_not_mem (by simp), List.dedup_nil]
  have hlen : ((normalize_participants A
      (ConversationCreate.mk none false [B]).participant_ids).length == 2) = true := by
    rw [show (ConversationCreate.mk none false [B]).participant_ids = [B] from rfl, hded]
    rfl
  cases hf : cc_found s A ⟨none, false, [B]⟩ with
  | some c =>
    have e1 := create_conversation_found_eq hf
    have hf2 : cc_found (create_conversation s A ⟨none, false, [B]⟩).1 A
        ⟨none, false, [B]⟩ = some c := by
      rw [e1]
      exact (cc_found_next_id s (s.next_id + 1) A ⟨none, false, [B]⟩).trans hf
    have e2 := create_conversation_found_eq hf2
    obtain ⟨v, hv, _⟩ := create_conversation_found_ok hf
    refine ⟨v, hv, ?_, ?_, ?_⟩
    · rw [e2]
      show get_conversation (create_conversation s A ⟨none, false, [B]⟩).1 c A = .ok v
      rw [e1] at hv ⊢
      exact hv
    · rw [e2, e1]
    · rw [e2, e1]
  | none =>
    have e1 := create_conversation_new hf
    have hf2 : cc_found (create_conversation s A ⟨none, false, [B]⟩).1 A
        ⟨none, false, [B]⟩ = some s.next_id :=
      cc_found_after_create hWF hf rfl hlen
    have e2 := create_conversation_found_eq hf2
    obtain ⟨v, hv, _⟩ := create_conversation_new_ok hf
    refine ⟨v, hv, ?_, ?_, ?_⟩
    · rw [e2]
      show get_conversation (create_conversation s A ⟨none, false, [B]⟩).1 s.next_id A = .ok v
      rw [e1] at hv ⊢
      exact hv
    · rw [e2, e1]
    · rw [e2, e1]

theorem create_conversation_idempotent_witness :
    WF ⟨[], [], [], [], [], [], [], [], 0, 0⟩ ∧ (1 : Nat) ≠ 2 ∧
    (create_conversation
        (create_conversation ⟨[], [], [], [], [], [], [], [], 0, 0⟩ 1 ⟨none, false, [2]⟩).1
        1 ⟨none, false, [2]⟩).1.conversations =
      (create_conversation ⟨[], [], [], [], [], [], [], [], 0, 0⟩ 1 ⟨none, false, [2]⟩).1.conversations :=
  ⟨by decide, by decide,
   by
    obtain ⟨v, _, _, h3, _⟩ :=
      create_conversation_idempotent ⟨[], [], [], [], [], [], [], [], 0, 0⟩ 1 2
        (by decide) (by decide)
    exact h3⟩

/-- Claim C10: accepting a ChatRequest whose `is_group_invite` flag is true
but whose `conversation_id` is absent does not fail (the Python truthiness
guard `is_group_invite and conversation_id` is false on a missing id): no
participant row is inserted into any conversation that already exists;
the call falls through to `create_conversation`, creating — or reusing via
the dedup scan — a direct non-group conversation between the sender and
the accepting receiver. -/
theorem accept_group_invite_missing_conversation (s : ServerState) (req_id u : Nat)
    (req : ChatRequest) (hWF : WF s)
    (hfind : s.chat_requests.find? (fun r => r.id == req_id && r.receiver_id == u) =
      some req)
    (hpend : req.status = "pending") (hgi : req.is_group_invite = true)
    (hcid : req.conversation_id = none) :
    accept_chat_request s req_id u =
      create_conversation
        { s with chat_requests := s.chat_requests.map (fun r =>
            if r.id == req_id then { r with status := "accepted" } else r) }
        u ⟨none, false, [req.sender_id]⟩ ∧
    (∃ v, (accept_chat_request s req_id u).2 = .ok v) ∧
    (∀ row ∈ (accept_chat_request s req_id u).1.conversation_participants,
      row ∈ s.conversation_participants ∨
        ∀ c ∈ s.conversations, c.id ≠ row.conversation_id) := by
  have e0 : accept_chat_request s req_id u =
      create_conversation
        { s with chat_requests := s.chat_requests.map (fun r =>
            if r.id == req_id then { r with status := "accepted" } else r) }
        u ⟨none, false, [req.sender_id]⟩ := by
    simp [accept_chat_request, hfind, hpend, hgi, hcid]
  refine ⟨e0, ?_, ?_⟩
  · rw [e0]
    exact create_conversation_ok _ _ _
  · rw [e0]
    intro row hrow
    cases hf : cc_found
        { s with chat_requests := s.chat_requests.map (fun r =>
            if r.id == req_id then { r with status := "accepted" } else r) }
        u ⟨none, false, [req.sender_id]⟩ with
    | some c =>
      have hparts : (create_conversation
          { s with chat_requests := s.chat_requests.map (fun r =>
              if r.id == req_id then { r with status := "accepted" } else r) }
          u ⟨none, false, [req.sender_id]⟩).1.conversation_participants =
          s.conversation_participants := by
        rw [create_conversation_found_eq hf]
      rw [hparts] at hrow
      exact Or.inl hrow
    | none =>
      have hparts : (create_conversation
          { s with chat_requests := s.chat_requests.map (fun r =>
              if r.id == req_id then { r with status := "accepted" } else r) }
          u ⟨none, false, [req.sender_id]⟩).1.conversation_participants =
          s.conversation_participants ++
            (normalize_participants u [req.sender_id]).map
              (fun pid => ⟨s.next_id, pid, s.clock + 1⟩) := by
        rw [create_conversation_new hf]
        rfl
      rw [hparts] at hrow
      rcases List.mem_append.mp hrow with hl | hr
      · exact Or.inl hl
      · obtain ⟨pid, _, rfl⟩ := List.mem_map.mp hr
        refine Or.inr (fun c hc => ?_)
        have := hWF.1 c hc
        show c.id ≠ s.next_id
        omega

theorem accept_group_invite_missing_conversation_witness :
    WF ⟨[], [], [], [], [⟨0, 1, 2, none, "pending", true, none, 0⟩], [], [], [], 1, 1⟩ ∧
    accept_chat_request
        ⟨[], [], [], [], [⟨0, 1, 2, none, "pending", true, none, 0⟩], [], [], [], 1, 1⟩ 0 2 =
      create_conversation
        { (⟨[], [], [], [], [⟨0, 1, 2, none, "pending", true, none, 0⟩], [], [], [], 1, 1⟩ :
            ServerState) with
            chat_requests :=
              ([⟨0, 1, 2, none, "pending", true, none, 0⟩] : List ChatRequest).map (fun r =>
                if r.id == 0 then { r with status := "accepted" } else r) }
        2 ⟨none, false, [1]⟩ :=
  ⟨by decide,
   (accept_group_invite_missing_conversation
      ⟨[], [], [], [], [⟨0, 1, 2, none, "pending", true, none, 0⟩], [], [], [], 1, 1⟩ 0 2
      ⟨0, 1, 2, none, "pending", true, none, 0⟩ (by decide) (by decide) rfl rfl rfl).1⟩

end ConnectChat
